import Mathlib

/-!
Verification of the battery-charging action server
(`src/robot_actions/battery_charger.py`).

The server holds two instance fields, `current_battery` (initially `20`)
and `charge_rate` (initially `5.0`).  `goal_callback` accepts or rejects a
requested `target_percentage`; `execute_callback` runs the charging loop:
while the battery is below the target it polls the cancellation flag,
advances the battery by `charge_rate * 0.5` clamped to the target, and
publishes a feedback message, sleeping `0.5` seconds per iteration.

Numbers are modelled as rationals.  Python's `int(...)` truncation toward
zero is `pyInt`.  Wall-clock time is idealised: the elapsed time after `k`
completed loop iterations is `k * 0.5` seconds.  The loop is embedded as a
fuel-indexed recursion returning the list of published feedback messages,
`some result` when the loop reached a terminal return (or `none` when the
fuel ran out first), and the final server state.  Cancellation is an
arbitrary predicate on the iteration counter, standing for the external
`goal_handle.is_cancel_requested` flag polled once per iteration.
-/

namespace BatteryCharger

/-- Python `int(q)`: truncation toward zero. -/
def pyInt (q : ℚ) : ℤ := if 0 ≤ q then ⌊q⌋ else ⌈q⌉

/-- Admission decision.  The source returns `GoalResponse.REJECT` from two
distinct branches (invalid target / already satisfied); the constructors
record which branch produced the rejection. -/
inductive GoalResponse where
  | accept
  | rejectInvalidTarget
  | rejectAlreadySatisfied
  deriving DecidableEq

/-- The mutable instance fields of the `BatteryCharger` node. -/
structure ChargerState where
  current_battery : ℚ
  charge_rate : ℚ
  deriving DecidableEq

/-- `__init__`: `current_battery = 20`, `charge_rate = 5.0`. -/
def initState : ChargerState := { current_battery := 20, charge_rate := 5 }

/-- `goal_callback`: rejects a target outside `[0, 100]`, rejects when the
battery already meets the target, otherwise accepts.  The body never
assigns an instance field, so the returned state is the input state. -/
def goal_callback (s : ChargerState) (target_percentage : ℚ) :
    GoalResponse × ChargerState :=
  if target_percentage < 0 ∨ 100 < target_percentage then
    (GoalResponse.rejectInvalidTarget, s)
  else if target_percentage ≤ s.current_battery then
    (GoalResponse.rejectAlreadySatisfied, s)
  else
    (GoalResponse.accept, s)

/-- A `ChargeBattery.Feedback` message. -/
structure Feedback where
  current_percentage : ℤ
  time_remaining : ℚ
  charging_rate : ℚ
  deriving DecidableEq

/-- A `ChargeBattery.Result` message. -/
structure Result where
  success : Bool
  final_percentage : ℤ
  charging_time : ℚ
  deriving DecidableEq

/-- The fixed `0.5`-second tick between loop iterations. -/
def tickInterval : ℚ := 1 / 2

/-- `charge_amount = self.charge_rate * 0.5`. -/
def chargeAmount (s : ChargerState) : ℚ := s.charge_rate * tickInterval

/-- One battery update:
`self.current_battery = min(self.current_battery + charge_amount, target)`. -/
def stepBattery (rate target battery : ℚ) : ℚ :=
  min (battery + rate * tickInterval) target

/-- The server state after one loop iteration's battery update.  Only
`current_battery` is assigned; `charge_rate` is untouched. -/
def stepState (target : ℚ) (s : ChargerState) : ChargerState :=
  { s with current_battery := stepBattery s.charge_rate target s.current_battery }

/-- The feedback message published after one battery update:
`current_percentage = int(self.current_battery)`,
`time_remaining = remaining_percent / self.charge_rate`,
`charging_rate = self.charge_rate`. -/
def stepFeedback (target : ℚ) (s : ChargerState) : Feedback :=
  { current_percentage := pyInt (stepBattery s.charge_rate target s.current_battery)
    time_remaining :=
      (target - stepBattery s.charge_rate target s.current_battery) / s.charge_rate
    charging_rate := s.charge_rate }

/-- The charging loop of `execute_callback`, with `fuel` bounding the
number of iterations and `k` counting completed iterations (so the
idealised elapsed time is `k * tickInterval`).  Returns the published
feedback list, `some result` on a terminal return (`none` if the fuel ran
out), and the final state. -/
def execute_callback (target : ℚ) (cancelRequested : ℕ → Bool) :
    ℕ → ChargerState → ℕ → List Feedback × Option Result × ChargerState
  | 0, s, _ => ([], none, s)
  | fuel + 1, s, k =>
    if s.current_battery < target then
      if cancelRequested k then
        ([], some { success := false
                    final_percentage := pyInt s.current_battery
                    charging_time := (k : ℚ) * tickInterval }, s)
      else
        let rest := execute_callback target cancelRequested fuel
          (stepState target s) (k + 1)
        (stepFeedback target s :: rest.1, rest.2.1, rest.2.2)
    else
      ([], some { success := true
                  final_percentage := pyInt s.current_battery
                  charging_time := (k : ℚ) * tickInterval }, s)

/-- Truncation toward zero is monotone. -/
theorem pyInt_mono {p q : ℚ} (h : p ≤ q) : pyInt p ≤ pyInt q := by
  unfold pyInt
  by_cases hp : 0 ≤ p
  · rw [if_pos hp, if_pos (hp.trans h)]
    exact Int.floor_le_floor h
  · rw [if_neg hp]
    by_cases hq : 0 ≤ q
    · rw [if_pos hq]
      calc ⌈p⌉ ≤ 0 := Int.ceil_le.mpr (by exact_mod_cast le_of_lt (lt_of_not_le hp))
        _ ≤ ⌊q⌋ := Int.floor_nonneg.mpr hq
    · rw [if_neg hq]
      exact Int.ceil_le_ceil h

/-- The loop never modifies `charge_rate`. -/
theorem execute_rate_eq (target : ℚ) (cancelRequested : ℕ → Bool) :
    ∀ fuel (s : ChargerState) k,
      ((execute_callback target cancelRequested fuel s k).2.2).charge_rate =
        s.charge_rate := by
  intro fuel
  induction fuel with
  | zero => intro s k; rfl
  | succ n ih =>
    intro s k
    unfold execute_callback
    by_cases hb : s.current_battery < target
    · rw [if_pos hb]
      by_cases hc : cancelRequested k
      · rw [if_pos hc]
      · rw [if_neg hc]
        exact ih _ _
    · rw [if_neg hb]

/-- The battery does not move backwards in one update. -/
theorem le_stepBattery {rate target battery : ℚ} (hr : 0 ≤ rate)
    (hb : battery ≤ target) : battery ≤ stepBattery rate target battery := by
  unfold stepBattery
  have h : 0 ≤ rate * tickInterval :=
    mul_nonneg hr (by norm_num [tickInterval])
  exact le_min (by linarith) hb

/-- With a positive rate, one update strictly increases a battery below
the target. -/
theorem lt_stepBattery {rate target battery : ℚ} (hr : 0 < rate)
    (hb : battery < target) : battery < stepBattery rate target battery := by
  unfold stepBattery
  have h : 0 < rate * tickInterval :=
    mul_pos hr (by norm_num [tickInterval])
  exact lt_min (by linarith) hb

/-- The clamp: one update never overshoots the target. -/
theorem stepBattery_le_target (rate target battery : ℚ) :
    stepBattery rate target battery ≤ target := min_le_right _ _

/-- Once at most the target, the battery stays at most the target for the
rest of the loop. -/
theorem execute_battery_le (target : ℚ) (cancelRequested : ℕ → Bool) :
    ∀ fuel (s : ChargerState) k, s.current_battery ≤ target →
      ((execute_callback target cancelRequested fuel s k).2.2).current_battery ≤
        target := by
  intro fuel
  induction fuel with
  | zero => intro s k h; exact h
  | succ n ih =>
    intro s k h
    unfold execute_callback
    by_cases hb : s.current_battery < target
    · rw [if_pos hb]
      by_cases hc : cancelRequested k
      · rw [if_pos hc]; exact h
      · rw [if_neg hc]
        exact ih _ _ (stepBattery_le_target _ _ _)
    · rw [if_neg hb]; exact h

/-- C1: for every accepted goal (battery strictly below the target at
admission), each loop iteration strictly increases the battery, the
clamped update never exceeds the target, and the battery at the end of
the loop is still at most the target. -/
theorem charge_strictly_increases_and_clamped
    (rate target battery : ℚ) (cancelRequested : ℕ → Bool) (fuel k : ℕ)
    (hr : 0 < rate) (hb : battery < target) :
    battery < stepBattery rate target battery ∧
    stepBattery rate target battery ≤ target ∧
    ((execute_callback target cancelRequested fuel
        { current_battery := battery, charge_rate := rate } k).2.2).current_battery ≤
      target :=
  ⟨lt_stepBattery hr hb, stepBattery_le_target rate target battery,
    execute_battery_le target cancelRequested fuel _ k (le_of_lt hb)⟩

/-- Witness for C1 at rate 5, target 100, battery 20. -/
theorem charge_strictly_increases_and_clamped_witness :
    (0 : ℚ) < 5 ∧ (20 : ℚ) < 100 ∧
    ((20 : ℚ) < stepBattery 5 100 20 ∧
     stepBattery 5 100 20 ≤ 100 ∧
     ((execute_callback 100 (fun _ => false) 3
         { current_battery := 20, charge_rate := 5 } 0).2.2).current_battery ≤
       100) :=
  ⟨by norm_num, by norm_num,
    charge_strictly_increases_and_clamped 5 100 20 (fun _ => false) 3 0
      (by norm_num) (by norm_num)⟩

/-- C2: if cancellation is observed at the top of a loop iteration, the
loop returns immediately with `success = false`, `final_percentage` the
truncation of the battery as of the last completed increment, elapsed
time `k` ticks, no feedback published in that iteration, and the state
unchanged. -/
theorem cancel_returns_immediately
    (target : ℚ) (cancelRequested : ℕ → Bool) (fuel k : ℕ) (s : ChargerState)
    (hb : s.current_battery < target) (hc : cancelRequested k = true) :
    execute_callback target cancelRequested (fuel + 1) s k =
      ([], some { success := false
                  final_percentage := pyInt s.current_battery
                  charging_time := (k : ℚ) * tickInterval }, s) := by
  unfold execute_callback
  rw [if_pos hb, if_pos hc]

/-- Witness for C2: cancellation observed on the first iteration. -/
theorem cancel_returns_immediately_witness :
    initState.current_battery < 100 ∧ (fun _ : ℕ => true) 0 = true ∧
    execute_callback 100 (fun _ => true) 1 initState 0 =
      ([], some { success := false
                  final_percentage := pyInt initState.current_battery
                  charging_time := ((0 : ℕ) : ℚ) * tickInterval }, initState) :=
  ⟨by norm_num [initState], rfl,
    cancel_returns_immediately 100 (fun _ => true) 0 0 initState
      (by norm_num [initState]) rfl⟩

/-- C3: a target outside `[0, 100]` is rejected through the
invalid-target branch. -/
theorem invalid_target_rejected (s : ChargerState) (t : ℚ)
    (h : t < 0 ∨ 100 < t) :
    (goal_callback s t).1 = GoalResponse.rejectInvalidTarget := by
  unfold goal_callback
  rw [if_pos h]

/-- Witness for C3 at target 150. -/
theorem invalid_target_rejected_witness :
    ((150 : ℚ) < 0 ∨ (100 : ℚ) < 150) ∧
    (goal_callback initState 150).1 = GoalResponse.rejectInvalidTarget :=
  ⟨by norm_num,
    invalid_target_rejected initState 150 (by norm_num)⟩

/-- C4: a target inside `[0, 100]` that the battery already meets is
rejected through the already-satisfied branch. -/
theorem already_satisfied_rejected (s : ChargerState) (t : ℚ)
    (h0 : 0 ≤ t) (h1 : t ≤ 100) (hle : t ≤ s.current_battery) :
    (goal_callback s t).1 = GoalResponse.rejectAlreadySatisfied := by
  unfold goal_callback
  rw [if_neg (by push_neg; exact ⟨h0, h1⟩), if_pos hle]

/-- Witness for C4 at state 50, target 30. -/
theorem already_satisfied_rejected_witness :
    (0 : ℚ) ≤ 30 ∧ (30 : ℚ) ≤ 100 ∧
    (30 : ℚ) ≤ ({ current_battery := 50, charge_rate := 5 } : ChargerState).current_battery ∧
    (goal_callback { current_battery := 50, charge_rate := 5 } 30).1 =
      GoalResponse.rejectAlreadySatisfied :=
  ⟨by norm_num, by norm_num, by norm_num,
    already_satisfied_rejected { current_battery := 50, charge_rate := 5 } 30
      (by norm_num) (by norm_num) (by norm_num)⟩

/-- C9: admission never mutates the server state, and in particular
rejecting target 30 at battery 50 leaves the battery at 50. -/
theorem goal_callback_no_side_effects (s : ChargerState) (t : ℚ) :
    (goal_callback s t).2 = s ∧
    goal_callback { current_battery := 50, charge_rate := 5 } 30 =
      (GoalResponse.rejectAlreadySatisfied,
        { current_battery := 50, charge_rate := 5 }) := by
  constructor
  · unfold goal_callback
    split
    · rfl
    · split <;> rfl
  · norm_num [goal_callback]

/-- Every feedback message published by the loop carries the server's
charge rate. -/
theorem execute_feedback_rate (target : ℚ) (cancelRequested : ℕ → Bool) :
    ∀ fuel (s : ChargerState) k,
      ∀ fb ∈ (execute_callback target cancelRequested fuel s k).1,
        fb.charging_rate = s.charge_rate := by
  intro fuel
  induction fuel with
  | zero => intro s k fb hfb; simp [execute_callback] at hfb
  | succ n ih =>
    intro s k fb hfb
    unfold execute_callback at hfb
    by_cases hb : s.current_battery < target
    · rw [if_pos hb] at hfb
      by_cases hc : cancelRequested k
      · rw [if_pos hc] at hfb
        simp at hfb
      · rw [if_neg hc] at hfb
        simp only [List.mem_cons] at hfb
        rcases hfb with rfl | hfb
        · rfl
        · exact ih (stepState target s) (k + 1) fb hfb
    · rw [if_neg hb] at hfb
      simp at hfb

/-- Every feedback message published starting from state `s` reports a
truncated level at least `pyInt s.current_battery`. -/
theorem execute_feedback_lower (target : ℚ) (cancelRequested : ℕ → Bool) :
    ∀ fuel (s : ChargerState) k, 0 ≤ s.charge_rate →
      ∀ fb ∈ (execute_callback target cancelRequested fuel s k).1,
        pyInt s.current_battery ≤ fb.current_percentage := by
  intro fuel
  induction fuel with
  | zero => intro s k hr fb hfb; simp [execute_callback] at hfb
  | succ n ih =>
    intro s k hr fb hfb
    unfold execute_callback at hfb
    by_cases hb : s.current_battery < target
    · rw [if_pos hb] at hfb
      by_cases hc : cancelRequested k
      · rw [if_pos hc] at hfb
        simp at hfb
      · rw [if_neg hc] at hfb
        simp only [List.mem_cons] at hfb
        have hstep : s.current_battery ≤
            stepBattery s.charge_rate target s.current_battery :=
          le_stepBattery hr (le_of_lt hb)
        rcases hfb with rfl | hfb
        · exact pyInt_mono hstep
        · exact le_trans (pyInt_mono hstep)
            (ih (stepState target s) (k + 1) hr fb hfb)
    · rw [if_neg hb] at hfb
      simp at hfb

/-- The truncated levels of the published feedback sequence are
non-decreasing. -/
theorem execute_feedback_chain (target : ℚ) (cancelRequested : ℕ → Bool) :
    ∀ fuel (s : ChargerState) k, 0 ≤ s.charge_rate →
      List.Chain' (fun a b : Feedback => a.current_percentage ≤ b.current_percentage)
        (execute_callback target cancelRequested fuel s k).1 := by
  intro fuel
  induction fuel with
  | zero => intro s k hr; exact List.chain'_nil
  | succ n ih =>
    intro s k hr
    unfold execute_callback
    by_cases hb : s.current_battery < target
    · rw [if_pos hb]
      by_cases hc : cancelRequested k
      · rw [if_pos hc]; exact List.chain'_nil
      · rw [if_neg hc]
        refine List.chain'_cons'.mpr ⟨?_, ih (stepState target s) (k + 1) hr⟩
        intro y hy
        exact execute_feedback_lower target cancelRequested n
          (stepState target s) (k + 1) hr y (List.mem_of_mem_head? hy)
    · rw [if_neg hb]; exact List.chain'_nil

/-- When the loop returns a successful result, either no feedback was
published (the battery already met the target on entry) or the last
feedback message reports exactly the result's final percentage. -/
theorem execute_success_last (target : ℚ) (cancelRequested : ℕ → Bool) :
    ∀ fuel (s : ChargerState) k fbs r s₂,
      execute_callback target cancelRequested fuel s k = (fbs, some r, s₂) →
      r.success = true →
      (fbs = [] ∧ r.final_percentage = pyInt s.current_battery) ∨
      (∃ fb, fbs.getLast? = some fb ∧
        fb.current_percentage = r.final_percentage) := by
  intro fuel
  induction fuel with
  | zero =>
    intro s k fbs r s₂ he _
    have h := congrArg (fun x => x.2.1) he
    simp [execute_callback] at h
  | succ n ih =>
    intro s k fbs r s₂ he hs
    unfold execute_callback at he
    by_cases hb : s.current_battery < target
    · rw [if_pos hb] at he
      by_cases hc : cancelRequested k
      · rw [if_pos hc] at he
        have h := congrArg (fun x => x.2.1) he
        simp only [Option.some.injEq] at h
        rw [← h] at hs
        simp at hs
      · rw [if_neg hc] at he
        simp only [Prod.mk.injEq] at he
        obtain ⟨hfbs, hres, hs2⟩ := he
        have hrec := ih (stepState target s) (k + 1)
          (execute_callback target cancelRequested n (stepState target s) (k + 1)).1
          r
          (execute_callback target cancelRequested n (stepState target s) (k + 1)).2.2
          (by rw [← hres]) hs
        rcases hrec with ⟨hnil, hfin⟩ | ⟨fb, hlast, hfb⟩
        · right
          refine ⟨stepFeedback target s, ?_, ?_⟩
          · rw [← hfbs, hnil]
            simp
          · exact hfin.symm
        · right
          refine ⟨fb, ?_, hfb⟩
          rw [← hfbs]
          rcases hl : (execute_callback target cancelRequested n
              (stepState target s) (k + 1)).1 with _ | ⟨b, l⟩
          · rw [hl] at hlast
            simp at hlast
          · rw [hl] at hlast
            rw [List.getLast?_cons_cons]
            exact hlast
    · rw [if_neg hb] at he
      simp only [Prod.mk.injEq] at he
      obtain ⟨hfbs, hres, _⟩ := he
      left
      simp only [Option.some.injEq] at hres
      exact ⟨hfbs.symm, by rw [← hres]⟩

/-- C5: for an accepted goal (battery below target on entry), the
published feedback sequence is non-decreasing in `current_percentage` —
whether the run is cancelled, exhausts its fuel, or completes — and when
the goal runs to successful completion the last feedback's
`current_percentage` equals the result's `final_percentage`. -/
theorem feedback_monotone_and_final
    (target : ℚ) (cancelRequested : ℕ → Bool) (fuel : ℕ) (s : ChargerState)
    (fbs : List Feedback) (res : Option Result) (s₂ : ChargerState)
    (hr : 0 ≤ s.charge_rate) (hb : s.current_battery < target)
    (he : execute_callback target cancelRequested fuel s 0 = (fbs, res, s₂)) :
    List.Chain' (fun a b : Feedback => a.current_percentage ≤ b.current_percentage)
      fbs ∧
    ∀ r : Result, res = some r → r.success = true →
      ∃ fb, fbs.getLast? = some fb ∧
        fb.current_percentage = r.final_percentage := by
  constructor
  · have h := execute_feedback_chain target cancelRequested fuel s 0 hr
    rw [he] at h
    exact h
  · intro r hres hs
    rw [hres] at he
    rcases execute_success_last target cancelRequested fuel s 0 fbs r s₂ he hs with
      ⟨hnil, _⟩ | h
    · exfalso
      cases fuel with
      | zero =>
        have h := congrArg (fun x => x.2.1) he
        simp [execute_callback] at h
      | succ n =>
        unfold execute_callback at he
        rw [if_pos hb] at he
        by_cases hc : cancelRequested 0
        · rw [if_pos hc] at he
          have h := congrArg (fun x => x.2.1) he
          simp only [Option.some.injEq] at h
          rw [← h] at hs
          simp at hs
        · rw [if_neg hc] at he
          simp only [Prod.mk.injEq] at he
          obtain ⟨hfbs, -, -⟩ := he
          rw [hnil] at hfbs
          exact List.cons_ne_nil _ _ hfbs
    · exact h

/-- Witness for C5: charging from 20 to target 25 at rate 5 publishes
feedback 22 then 25, and the successful result's final percentage 25
matches the last feedback. -/
theorem feedback_monotone_and_final_witness :
    (0 : ℚ) ≤ initState.charge_rate ∧
    initState.current_battery < 25 ∧
    execute_callback 25 (fun _ => false) 3 initState 0 =
      ([{ current_percentage := 22, time_remaining := 1 / 2, charging_rate := 5 },
        { current_percentage := 25, time_remaining := 0, charging_rate := 5 }],
       some { success := true, final_percentage := 25, charging_time := 1 },
       { current_battery := 25, charge_rate := 5 }) ∧
    List.Chain' (fun a b : Feedback => a.current_percentage ≤ b.current_percentage)
      [{ current_percentage := 22, time_remaining := 1 / 2, charging_rate := 5 },
       { current_percentage := 25, time_remaining := 0, charging_rate := 5 }] ∧
    ∃ fb,
      ([{ current_percentage := 22, time_remaining := 1 / 2, charging_rate := 5 },
        { current_percentage := 25, time_remaining := 0, charging_rate := 5 }] :
          List Feedback).getLast? = some fb ∧
      fb.current_percentage =
        ({ success := true, final_percentage := 25, charging_time := 1 } :
          Result).final_percentage := by
  have heq : execute_callback 25 (fun _ => false) 3 initState 0 =
      ([{ current_percentage := 22, time_remaining := 1 / 2, charging_rate := 5 },
        { current_percentage := 25, time_remaining := 0, charging_rate := 5 }],
       some { success := true, final_percentage := 25, charging_time := 1 },
       { current_battery := 25, charge_rate := 5 }) := by
    norm_num [execute_callback, stepState, stepFeedback, stepBattery, pyInt,
      tickInterval, initState]
  have hmain := feedback_monotone_and_final 25 (fun _ => false) 3 initState _ _ _
    (by norm_num [initState]) (by norm_num [initState]) heq
  exact ⟨by norm_num [initState], by norm_num [initState], heq, hmain.1,
    hmain.2 _ rfl rfl⟩

/-- With enough fuel to cover the remaining charge, the loop (without
cancellation) reaches a terminal result. -/
theorem execute_terminates_aux (target : ℚ) :
    ∀ (n : ℕ) (s : ChargerState) (k : ℕ), 0 < s.charge_rate →
      target ≤ s.current_battery + n * chargeAmount s →
      ((execute_callback target (fun _ => false) (n + 1) s k).2.1).isSome = true := by
  intro n
  induction n with
  | zero =>
    intro s k hr h
    unfold execute_callback
    rw [if_neg (not_lt.mpr (by push_cast at h; linarith))]
    rfl
  | succ m ih =>
    intro s k hr h
    by_cases hb : s.current_battery < target
    · show ((execute_callback target (fun _ => false) (m + 1 + 1) s k).2.1).isSome = true
      unfold execute_callback
      rw [if_pos hb, if_neg (by simp)]
      show ((execute_callback target (fun _ => false) (m + 1)
          (stepState target s) (k + 1)).2.1).isSome = true
      have key : target ≤
          stepBattery s.charge_rate target s.current_battery + m * chargeAmount s := by
        unfold stepBattery
        rcases le_total target (s.current_battery + s.charge_rate * tickInterval)
          with hle | hle
        · rw [min_eq_right hle]
          have h0 : (0 : ℚ) ≤ m * chargeAmount s := by
            have : (0 : ℚ) ≤ chargeAmount s := by
              unfold chargeAmount tickInterval
              positivity
            positivity
          linarith
        · rw [min_eq_left hle]
          push_cast at h
          unfold chargeAmount tickInterval at h ⊢
          linarith
      exact ih (stepState target s) (k + 1) hr key
    · unfold execute_callback
      rw [if_neg hb]
      rfl

/-- C8: every accepted goal (battery below target) with a positive rate
and no cancellation request terminates: some finite fuel makes the loop
return a result. -/
theorem accepted_goal_terminates (target : ℚ) (s : ChargerState) (k : ℕ)
    (hr : 0 < s.charge_rate) (hb : s.current_battery < target) :
    ∃ fuel,
      ((execute_callback target (fun _ => false) fuel s k).2.1).isSome = true := by
  refine ⟨⌈(target - s.current_battery) / chargeAmount s⌉₊ + 1, ?_⟩
  apply execute_terminates_aux target _ s k hr
  have hamt : 0 < chargeAmount s := by
    unfold chargeAmount tickInterval
    positivity
  have hle := Nat.le_ceil ((target - s.current_battery) / chargeAmount s)
  have h2 := (div_le_iff₀ hamt).mp hle
  linarith

/-- Witness for C8: from the initial state toward target 100. -/
theorem accepted_goal_terminates_witness :
    (0 : ℚ) < initState.charge_rate ∧ initState.current_battery < 100 ∧
    ∃ fuel,
      ((execute_callback 100 (fun _ => false) fuel initState 0).2.1).isSome = true :=
  ⟨by norm_num [initState], by norm_num [initState],
    accepted_goal_terminates 100 initState 0 (by norm_num [initState])
      (by norm_num [initState])⟩

set_option maxRecDepth 4000 in
/-- C6: from battery 20 at rate 10 per second with 0.5-second ticks
(increments of 5), target 100 is reached after 16 ticks and the loop
returns success with final percentage 100 and elapsed time 8 seconds. -/
theorem scenario_full_charge :
    chargeAmount { current_battery := 20, charge_rate := 10 } = 5 ∧
    (execute_callback 100 (fun _ => false) 17
        { current_battery := 20, charge_rate := 10 } 0).1.length = 16 ∧
    (execute_callback 100 (fun _ => false) 17
        { current_battery := 20, charge_rate := 10 } 0).2.1 =
      some { success := true, final_percentage := 100, charging_time := 8 } ∧
    ((execute_callback 100 (fun _ => false) 17
        { current_battery := 20, charge_rate := 10 } 0).2.2).current_battery = 100 := by
  refine ⟨by norm_num [chargeAmount, tickInterval], ?_, ?_, ?_⟩ <;>
    norm_num [execute_callback, stepState, stepFeedback, stepBattery, pyInt,
      tickInterval]

/-- C7: from battery 20 with increments of 5 (rate 10), a cancellation
first observed at the start of the fourth iteration (after 3 completed
ticks) stops the goal with `success = false`, final percentage
35 = 20 + 3 × 5, and elapsed time 1.5 seconds. -/
theorem scenario_cancelled_after_three_ticks :
    (execute_callback 100 (fun k => decide (3 ≤ k)) 4
        { current_battery := 20, charge_rate := 10 } 0).2.1 =
      some { success := false, final_percentage := 35, charging_time := 3 / 2 } ∧
    (execute_callback 100 (fun k => decide (3 ≤ k)) 4
        { current_battery := 20, charge_rate := 10 } 0).1.length = 3 ∧
    (execute_callback 100 (fun k => decide (3 ≤ k)) 4
        { current_battery := 20, charge_rate := 10 } 0).2.2 =
      { current_battery := 35, charge_rate := 10 } := by
  refine ⟨?_, ?_, ?_⟩ <;>
    norm_num [execute_callback, stepState, stepFeedback, stepBattery, pyInt,
      tickInterval]

/-- C10: the server starts at battery 20 with rate fixed at 5; no
operation modifies the rate (admission returns the state unchanged, the
loop preserves `charge_rate`, and every published feedback carries the
rate); the ETA divisor is the rate, which is nonzero; and each tick's
increment before clamping is exactly 5 × 0.5 = 2.5. -/
theorem rate_fixed_and_increment :
    initState.current_battery = 20 ∧
    initState.charge_rate = 5 ∧
    initState.charge_rate ≠ 0 ∧
    chargeAmount initState = 5 / 2 ∧
    (∀ (s : ChargerState) (t : ℚ),
      ((goal_callback s t).2).charge_rate = s.charge_rate) ∧
    (∀ (target : ℚ) (cancelRequested : ℕ → Bool) (fuel : ℕ) (s : ChargerState)
        (k : ℕ),
      ((execute_callback target cancelRequested fuel s k).2.2).charge_rate =
        s.charge_rate) ∧
    (∀ (target : ℚ) (cancelRequested : ℕ → Bool) (fuel : ℕ) (s : ChargerState)
        (k : ℕ),
      ∀ fb ∈ (execute_callback target cancelRequested fuel s k).1,
        fb.charging_rate = s.charge_rate) := by
  refine ⟨rfl, rfl, by norm_num [initState],
    by norm_num [chargeAmount, initState, tickInterval], ?_, ?_, ?_⟩
  · intro s t
    unfold goal_callback
    split
    · rfl
    · split <;> rfl
  · intro target cancelRequested fuel s k
    exact execute_rate_eq target cancelRequested fuel s k
  · intro target cancelRequested fuel s k fb hfb
    exact execute_feedback_rate target cancelRequested fuel s k fb hfb

end BatteryCharger
